import Mathlib

/-
Verification of the beanie ODM core against its specification.

The Python source is shallowly embedded:
- BSON-like values are the inductive `BValue`; a MongoDB document (a Python
  dict with string keys) is an association list `List (String × BValue)`.
- The MongoDB collection is `Collection`: an ordered list of stored records
  plus a counter supplying store-generated identities (ObjectIds are
  modelled as naturals).
- Async methods of `Document` become pure functions threading the
  collection state explicitly; a raised exception becomes an
  `Except DocError` result paired with the (unchanged) collection.
- Query-object code that is part of the repository but outside the provided
  sources (FindOne/FindMany execution, the In comparison operator,
  get_projection, the inspection models) is modelled from the
  specification; each such definition is marked in its doc comment.
-/

namespace Beanie

/-- BSON-like value: the payloads held in query fragments and stored
records. ObjectIds are modelled as naturals. -/
inductive BValue where
  | null : BValue
  | int : Int → BValue
  | str : String → BValue
  | oid : Nat → BValue
  | arr : List BValue → BValue
  | doc : List (String × BValue) → BValue

/-- Boolean equality on BSON values (structural). -/
def BValue.beq : BValue → BValue → Bool
  | .null, .null => true
  | .int a, .int b => a == b
  | .str a, .str b => a == b
  | .oid a, .oid b => a == b
  | .arr as, .arr bs => beqArr as bs
  | .doc as, .doc bs => beqObj as bs
  | _, _ => false
where
  beqArr : List BValue → List BValue → Bool
    | [], [] => true
    | x :: xs, y :: ys => BValue.beq x y && beqArr xs ys
    | _, _ => false
  beqObj : List (String × BValue) → List (String × BValue) → Bool
    | [], [] => true
    | (k, v) :: xs, (l, w) :: ys => k == l && BValue.beq v w && beqObj xs ys
    | _, _ => false

/-- A rendered query fragment / document: a Python dict with string keys. -/
abbrev BDoc := List (String × BValue)

/-- Python dict indexing `q[k]` on an association list (None when absent;
indexing a missing key raises in Python, so the result is optional). -/
def dictGet (q : BDoc) (k : String) : Option BValue :=
  List.lookup k q

/-- Python dict iteration `iter(q)`: the keys, in insertion order. -/
def dictKeys (q : BDoc) : List String :=
  q.map Prod.fst

/-- Python `len(q)` on a dict. -/
def dictLen (q : BDoc) : Nat :=
  q.length

/-- Rebuilding a plain dict from an object exposing the Mapping protocol:
`\x7bk: m[k] for k in iter(m)\x7d`. -/
def mappingToDict (keys : List String) (get : String → Option BValue) : BDoc :=
  keys.filterMap fun k => (get k).map fun v => (k, v)

/-- The `$all` array query operator (operators/find/array.py, class All):
holds a field path and a list of values. -/
structure All where
  field : String
  values : List BValue


/-- `All.query`: renders `\x7bfield: \x7b"$all": values\x7d\x7d`. -/
def All.query (a : All) : BDoc :=
  [(a.field, BValue.doc [("$all", BValue.arr a.values)])]

/-- The `$elemMatch` array query operator (class ElemMatch): holds a field
path and an expression document. -/
structure ElemMatch where
  field : String
  expression : BDoc


/-- `ElemMatch.query`: renders `\x7bfield: \x7b"$elemMatch": expr\x7d\x7d`. -/
def ElemMatch.query (o : ElemMatch) : BDoc :=
  [(o.field, BValue.doc [("$elemMatch", BValue.doc o.expression)])]

/-- The `$size` array query operator (class Size): holds a field path and a
number. -/
structure Size where
  field : String
  num : Int


/-- `Size.query`: renders `\x7bfield: \x7b"$size": n\x7d\x7d`. -/
def Size.query (o : Size) : BDoc :=
  [(o.field, BValue.doc [("$size", BValue.int o.num)])]

/-- BaseOperator.__getitem__ for All: `self.query[item]`. -/
def All.getItem (a : All) (k : String) : Option BValue :=
  dictGet a.query k

/-- BaseOperator.__iter__ for All: `iter(self.query)`. -/
def All.iterKeys (a : All) : List String :=
  dictKeys a.query

/-- BaseOperator.__len__ for All: `len(self.query)`. -/
def All.len (a : All) : Nat :=
  dictLen a.query

/-- BaseOperator.__getitem__ for ElemMatch. -/
def ElemMatch.getItem (o : ElemMatch) (k : String) : Option BValue :=
  dictGet o.query k

/-- BaseOperator.__iter__ for ElemMatch. -/
def ElemMatch.iterKeys (o : ElemMatch) : List String :=
  dictKeys o.query

/-- BaseOperator.__len__ for ElemMatch. -/
def ElemMatch.len (o : ElemMatch) : Nat :=
  dictLen o.query

/-- BaseOperator.__getitem__ for Size. -/
def Size.getItem (o : Size) (k : String) : Option BValue :=
  dictGet o.query k

/-- BaseOperator.__iter__ for Size. -/
def Size.iterKeys (o : Size) : List String :=
  dictKeys o.query

/-- BaseOperator.__len__ for Size. -/
def Size.len (o : Size) : Nat :=
  dictLen o.query

/-- Rendering with explicit state passing: the `query` property of each
operator class reads `self` and performs no assignment, so its embedding
returns the fragment together with the operator state it leaves behind,
which is the state it was given. -/
def All.queryRender (a : All) : BDoc × All :=
  (a.query, a)

/-- Rendering with explicit state passing for ElemMatch. -/
def ElemMatch.queryRender (o : ElemMatch) : BDoc × ElemMatch :=
  (o.query, o)

/-- Rendering with explicit state passing for Size. -/
def Size.queryRender (o : Size) : BDoc × Size :=
  (o.query, o)

/-- Errors raised by Document methods (beanie/exceptions.py). -/
inductive DocError where
  | documentWasNotSaved : DocError
  | documentAlreadyCreated : DocError
  | collectionWasNotInitialized : DocError
  | replaceError : String → DocError

/-- An in-memory Document instance: the optional identity (`id` field,
aliased `_id`, None until first persisted) plus the remaining fields. -/
structure Entity where
  id : Option Nat
  fields : BDoc

/-- A record as stored in the MongoDB collection: its `_id` value (None
models BSON null, as stored when a document is inserted with `_id: None`)
and its remaining fields. -/
structure StoredDoc where
  id : Option Nat
  fields : BDoc

/-- The MongoDB collection state: the stored records in insertion order and
a counter supplying the next store-generated ObjectId. -/
structure Collection where
  docs : List StoredDoc
  nextId : Nat

/-- The `_id` value of an identity as it appears in a stored document. -/
def idValue : Option Nat → BValue
  | none => BValue.null
  | some n => BValue.oid n

/-- The stored record viewed as a raw document: `_id` first, then fields
(the shape `parse_obj` and filters see). -/
def StoredDoc.toMapping (d : StoredDoc) : BDoc :=
  ("_id", idValue d.id) :: d.fields

/-- The Document instance mapped back from a stored record. -/
def StoredDoc.toEntity (d : StoredDoc) : Entity :=
  ⟨d.id, d.fields⟩

/-- Modelled from the spec: the opaque store matches a filter pair against
a raw document by exact value equality at the pair's key. -/
def matchesPair (m : BDoc) (kv : String × BValue) : Bool :=
  match List.lookup kv.1 m with
  | some v => BValue.beq v kv.2
  | none => false

/-- Modelled from the spec: a stored record matches a filter document when
every filter pair matches (implicit conjunction). -/
def matchesFilter (d : StoredDoc) (f : BDoc) : Bool :=
  f.all (matchesPair d.toMapping)

/-- Modelled from the spec: the store client's `insert_one` — appends a
record carrying a fresh store-generated identity and returns that
identity (`result.inserted_id`). -/
def insertOne (c : Collection) (fs : BDoc) : Collection × Nat :=
  (⟨c.docs ++ [⟨some c.nextId, fs⟩], c.nextId + 1⟩, c.nextId)

/-- Document.insert: raises DocumentAlreadyCreated when the identity is
already set (no store call); otherwise sends the fields excluding the
identity field to the store, assigns the store-generated identity back
onto the entity and returns it (documents.py lines 62-75). -/
def Document.insert (c : Collection) (e : Entity) : Collection × Except DocError Entity :=
  match e.id with
  | some _ => (c, Except.error DocError.documentAlreadyCreated)
  | none =>
    let r := insertOne c e.fields
    (r.1, Except.ok ⟨some r.2, e.fields⟩)

/-- Modelled from the spec: execution of a FindOne query object — returns
the first stored record matching the accumulated filter, mapped to an
entity, or None when no record matches. The session is an opaque token
passed through unchanged to the store; it does not alter the result in
this single-threaded model. -/
def findOneExec (c : Collection) (f : BDoc) (_session : Option Nat) : Option Entity :=
  (c.docs.find? fun d => matchesFilter d f).map StoredDoc.toEntity

/-- Document.find_one restricted to one criteria dict: builds a FindOne
query seeded with the filter and the session (documents.py lines 146-166)
and executes it. -/
def Document.find_one (c : Collection) (f : BDoc) (session : Option Nat) : Option Entity :=
  findOneExec c f session

/-- Document.get: delegates to find_one with the filter
`\x7b"_id": document_id\x7d` and the same session (documents.py line 144). -/
def Document.get (c : Collection) (i : Option Nat) (session : Option Nat) : Option Entity :=
  Document.find_one c [("_id", idValue i)] session

/-- Document.insert_many (documents.py lines 100-129): with keep_ids the
documents are sent with their `_id` values kept; otherwise the identity
field is excluded and the store generates fresh identities. -/
def Document.insert_many (c : Collection) (ds : List Entity) (keep_ids : Bool) : Collection :=
  if keep_ids then
    ⟨c.docs ++ ds.map (fun e => ⟨e.id, e.fields⟩), c.nextId⟩
  else
    ds.foldl (fun acc e => (insertOne acc e.fields).1) c

/-- Modelled from the spec: the In comparison operator's match semantics —
`find(In(cls.id, ids))` selects the stored records whose `_id` is among
the listed identities. -/
def idIn (d : StoredDoc) (ids : List (Option Nat)) : Bool :=
  decide (d.id ∈ ids)

/-- Modelled from the spec: `find(In(cls.id, ids)).count()` — the number of
stored records whose identity is among the listed ones. -/
def countIdIn (c : Collection) (ids : List (Option Nat)) : Nat :=
  (c.docs.filter (fun d => idIn d ids)).length

/-- Modelled from the spec: `find(In(cls.id, ids)).delete()` — removes
every stored record whose identity is among the listed ones. -/
def deleteIdIn (c : Collection) (ids : List (Option Nat)) : Collection :=
  ⟨c.docs.filter (fun d => ! idIn d ids), c.nextId⟩

/-- Document.replace_many (documents.py lines 290-309): collects the
supplied documents' identities; if the count of stored records with those
identities differs from the number supplied, raises ReplaceError before
any delete or insert; otherwise deletes the matched records and re-inserts
the supplied documents keeping their identities. -/
def Document.replace_many (c : Collection) (ds : List Entity) :
    Collection × Except DocError Unit :=
  let ids := ds.map Entity.id
  if countIdIn c ids ≠ ds.length then
    (c, Except.error (DocError.replaceError
      "Some of the documents are not exist in the collection"))
  else
    (Document.insert_many (deleteIdIn c ids) ds true, Except.ok ())

/-- Modelled from the spec: store-side replacement of the first record
matching the identity filter by a full new document (`replace_one`). -/
def replaceFirstById (i : Option Nat) (fs : BDoc) : List StoredDoc → List StoredDoc
  | [] => []
  | d :: ds =>
    if d.id = i then ⟨i, fs⟩ :: ds else d :: replaceFirstById i fs ds

/-- Document.replace (documents.py lines 273-288): raises
DocumentWasNotSaved when the identity is unset (no store call); otherwise
performs a full-document replacement keyed by the identity and returns the
entity. -/
def Document.replace (c : Collection) (e : Entity) : Collection × Except DocError Entity :=
  match e.id with
  | none => (c, Except.error DocError.documentWasNotSaved)
  | some i =>
    (⟨replaceFirstById (some i) e.fields c.docs, c.nextId⟩, Except.ok e)

/-- Modelled from the spec: store-side partial update of the first record
matching the identity filter; the interpretation of the update payload
(set/inc/unset fragments) is the opaque `applyMod` transformation of the
record's fields. -/
def updateFirstById (applyMod : BDoc → BDoc) (i : Option Nat) :
    List StoredDoc → List StoredDoc
  | [] => []
  | d :: ds =>
    if d.id = i then ⟨d.id, applyMod d.fields⟩ :: ds
    else d :: updateFirstById applyMod i ds

/-- Modelled from the spec: `find_one(\x7b"_id": id\x7d).update(mods)` — applies
the partial update to the record with the entity's identity. -/
def updateOneById (applyMod : BDoc → BDoc) (c : Collection) (i : Option Nat) : Collection :=
  ⟨updateFirstById applyMod i c.docs, c.nextId⟩

/-- Document._sync (documents.py lines 53-60): re-fetches the record by the
entity's identity via `get` (no session) and overwrites every local field
with the fetched values; None when the record is absent (in which case the
Python code raises while iterating None). -/
def Document._sync (c : Collection) (e : Entity) : Option Entity :=
  Document.get c e.id none

/-- Document.update (documents.py lines 311-322): partial update keyed by
the entity's identity, then a full resync of the local object from the
store. -/
def Document.update (applyMod : BDoc → BDoc) (c : Collection) (e : Entity) :
    Collection × Option Entity :=
  let c2 := updateOneById applyMod c e.id
  (c2, Document._sync c2 e)

/-- Inspection statuses (modelled from the spec: OK or FAIL). -/
inductive InspectionStatus where
  | ok : InspectionStatus
  | fail : InspectionStatus
deriving DecidableEq

/-- Modelled from the spec: one inspection error — a record identity plus
an error message. -/
structure InspectionError where
  document_id : Option Nat
  error : String

/-- Modelled from the spec: an inspection result — a status (initially OK)
plus the ordered list of accumulated errors. -/
structure InspectionResult where
  status : InspectionStatus
  errors : List InspectionError

/-- One iteration of the inspect_collection loop: validate the record; on
failure switch the status to FAIL (the source guards the switch with a
check that the status is still OK, which is equivalent for the two-valued
status) and append the (identity, message) error entry. -/
def inspectStep (validate : BDoc → Option String) (acc : InspectionResult)
    (d : StoredDoc) : InspectionResult :=
  match validate d.toMapping with
  | none => acc
  | some msg => ⟨InspectionStatus.fail, acc.errors ++ [⟨d.id, msg⟩]⟩

/-- Document.inspect_collection (documents.py lines 440-464): streams every
stored record, validates each against the schema (`parse_obj`, abstracted
as the `validate` function returning an error message on failure), and
accumulates failures without halting; the store is only read, never
written, so it is returned unchanged. -/
def Document.inspect_collection (validate : BDoc → Option String) (c : Collection) :
    Collection × InspectionResult :=
  (c, c.docs.foldl (inspectStep validate) ⟨InspectionStatus.ok, []⟩)

/-- The aggregation query object state (queries/aggregation.py lines
24-35): the caller-supplied pipeline stages, the accumulated filter and
the optional projection model, the latter abstracted as its field-path
set. -/
structure AggregationQuery where
  aggregation_pipeline : List BDoc
  find_query : BDoc
  projection_model : Option (List String)

/-- Modelled from the spec: get_projection — builds the $project document
from the projection schema's field set. -/
def get_projection (fieldPaths : List String) : BDoc :=
  fieldPaths.map fun f => (f, BValue.int 1)

/-- AggregationQuery.get_aggregation_pipeline (queries/aggregation.py lines
37-46): a $match stage from the filter when the filter dict is truthy
(non-empty), then the caller-supplied stages, then a $project stage when a
projection model is set. -/
def AggregationQuery.get_aggregation_pipeline (q : AggregationQuery) : List BDoc :=
  (if q.find_query.isEmpty then [] else [[("$match", BValue.doc q.find_query)]])
    ++ q.aggregation_pipeline
    ++ (match q.projection_model with
        | some pm => [[("$project", BValue.doc (get_projection pm))]]
        | none => [])

/-- Document.aggregate (documents.py lines 362-381): builds the aggregation
query via `find_all()` — whose accumulated filter is the empty dict `\x7b\x7d` —
with the caller's pipeline and projection model. -/
def Document.aggregate (pipeline : List BDoc) (pm : Option (List String)) :
    AggregationQuery :=
  ⟨pipeline, [], pm⟩

end Beanie

namespace Beanie

/-- Claim C6: the array operators render exactly the documented fragments:
All(field, values) renders \x7bfield: \x7b"$all": values\x7d\x7d, ElemMatch(field, expr)
renders \x7bfield: \x7b"$elemMatch": expr\x7d\x7d, and Size(field, n) renders
\x7bfield: \x7b"$size": n\x7d\x7d, for every field and operand. -/
theorem array_operators_render_documented_fragments
    (f : String) (vs : List BValue) (ex : BDoc) (n : Int) :
    (All.mk f vs).query = [(f, BValue.doc [("$all", BValue.arr vs)])] ∧
    (ElemMatch.mk f ex).query = [(f, BValue.doc [("$elemMatch", BValue.doc ex)])] ∧
    (Size.mk f n).query = [(f, BValue.doc [("$size", BValue.int n)])] :=
  ⟨rfl, rfl, rfl⟩

/-- Claim C9: each operator's rendered fragment is a pure deterministic
function of its held field and operand values: operators constructed from
equal state render equal fragments, rendering twice yields equal fragments,
and rendering leaves the operator state unchanged. -/
theorem operator_query_pure
    (a b : All) (o p : ElemMatch) (s t : Size) :
    ((a.field, a.values) = (b.field, b.values) → a.query = b.query) ∧
    a.queryRender = (a.query, a) ∧
    ((o.field, o.expression) = (p.field, p.expression) → o.query = p.query) ∧
    o.queryRender = (o.query, o) ∧
    ((s.field, s.num) = (t.field, t.num) → s.query = t.query) ∧
    s.queryRender = (s.query, s) := by
  refine ⟨?_, rfl, ?_, rfl, ?_, rfl⟩
  · cases a; cases b
    intro h
    simp only [Prod.mk.injEq] at h
    simp [All.query, h.1, h.2]
  · cases o; cases p
    intro h
    simp only [Prod.mk.injEq] at h
    simp [ElemMatch.query, h.1, h.2]
  · cases s; cases t
    intro h
    simp only [Prod.mk.injEq] at h
    simp [Size.query, h.1, h.2]

/-- Witness for C9: purity instantiated at concrete operators. -/
theorem operator_query_pure_witness :
    (All.mk "results" [BValue.int 80]).query
      = (All.mk "results" [BValue.int 80]).query ∧
    (ElemMatch.mk "r" [("a", BValue.int 1)]).query
      = (ElemMatch.mk "r" [("a", BValue.int 1)]).query ∧
    (Size.mk "r" 2).query = (Size.mk "r" 2).query := by
  have h := operator_query_pure
    (All.mk "results" [BValue.int 80]) (All.mk "results" [BValue.int 80])
    (ElemMatch.mk "r" [("a", BValue.int 1)]) (ElemMatch.mk "r" [("a", BValue.int 1)])
    (Size.mk "r" 2) (Size.mk "r" 2)
  exact ⟨h.1 rfl, h.2.2.1 rfl, h.2.2.2.2.1 rfl⟩

/-- Claim C10: every operator is usable as a mapping equal to its rendered
fragment: indexing, iteration and length delegate to the rendered query, and
rebuilding a dict through the Mapping protocol recovers the query itself, so
an operator denotes the same filter as its rendered dict. -/
theorem operator_mapping_protocol
    (a : All) (o : ElemMatch) (s : Size) (k : String) :
    a.getItem k = dictGet a.query k ∧
    a.iterKeys = dictKeys a.query ∧
    a.len = dictLen a.query ∧
    mappingToDict a.iterKeys a.getItem = a.query ∧
    o.getItem k = dictGet o.query k ∧
    o.iterKeys = dictKeys o.query ∧
    o.len = dictLen o.query ∧
    mappingToDict o.iterKeys o.getItem = o.query ∧
    s.getItem k = dictGet s.query k ∧
    s.iterKeys = dictKeys s.query ∧
    s.len = dictLen s.query ∧
    mappingToDict s.iterKeys s.getItem = s.query := by
  refine ⟨rfl, rfl, rfl, ?_, rfl, rfl, rfl, ?_, rfl, rfl, rfl, ?_⟩
  · simp [mappingToDict, All.iterKeys, All.getItem, All.query, dictKeys, dictGet,
      List.lookup]
  · simp [mappingToDict, ElemMatch.iterKeys, ElemMatch.getItem, ElemMatch.query,
      dictKeys, dictGet, List.lookup]
  · simp [mappingToDict, Size.iterKeys, Size.getItem, Size.query, dictKeys, dictGet,
      List.lookup]

end Beanie

namespace Beanie

/-- Claim C2: insert on an entity with identity set raises
DocumentAlreadyCreated without touching the store; on an entity with no
identity it appends the entity's non-identity fields to the store under a
fresh store-generated identity, assigns that identity back (non-null),
returns the entity, and a second insert on the now-identified entity is
rejected. -/
theorem insert_spec (c : Collection) (e : Entity) :
    (e.id ≠ none →
      Document.insert c e = (c, Except.error DocError.documentAlreadyCreated)) ∧
    (e.id = none →
      Document.insert c e =
        (⟨c.docs ++ [⟨some c.nextId, e.fields⟩], c.nextId + 1⟩,
          Except.ok ⟨some c.nextId, e.fields⟩) ∧
      (Entity.mk (some c.nextId) e.fields).id ≠ none ∧
      ∀ c2 : Collection,
        Document.insert c2 ⟨some c.nextId, e.fields⟩
          = (c2, Except.error DocError.documentAlreadyCreated)) := by
  obtain ⟨i, fs⟩ := e
  cases i with
  | none =>
    refine ⟨fun h => absurd rfl h, fun _ => ⟨rfl, by simp, fun c2 => rfl⟩⟩
  | some n =>
    exact ⟨fun _ => rfl, fun h => by simp at h⟩

/-- Witness for C2: insert at a concrete store and concrete entities, in
both the already-created and the fresh case. -/
theorem insert_spec_witness :
    Document.insert ⟨[], 0⟩ ⟨some 7, []⟩
      = (⟨[], 0⟩, Except.error DocError.documentAlreadyCreated) ∧
    Document.insert ⟨[], 0⟩ ⟨none, [("x", BValue.int 1)]⟩
      = (⟨[⟨some 0, [("x", BValue.int 1)]⟩], 1⟩,
          Except.ok ⟨some 0, [("x", BValue.int 1)]⟩) := by
  constructor
  · exact (insert_spec ⟨[], 0⟩ ⟨some 7, []⟩).1 (by simp)
  · exact ((insert_spec ⟨[], 0⟩ ⟨none, [("x", BValue.int 1)]⟩).2 rfl).1

/-- Claim C8: replace on an entity with unset identity raises
DocumentWasNotSaved with the store untouched; with identity set it
replaces the record keyed by that identity with the full document and
returns the entity, never changing the stored identity sequence. -/
theorem replace_spec (c : Collection) (e : Entity) :
    (e.id = none →
      Document.replace c e = (c, Except.error DocError.documentWasNotSaved)) ∧
    (∀ i : Nat, e.id = some i →
      Document.replace c e
          = (⟨replaceFirstById (some i) e.fields c.docs, c.nextId⟩, Except.ok e) ∧
      (Document.replace c e).1.docs.map StoredDoc.id = c.docs.map StoredDoc.id) := by
  have hmap : ∀ (i : Option Nat) (fs : BDoc) (l : List StoredDoc),
      (replaceFirstById i fs l).map StoredDoc.id = l.map StoredDoc.id := by
    intro i fs l
    induction l with
    | nil => rfl
    | cons d t ih =>
      by_cases h : d.id = i
      · simp [replaceFirstById, h]
      · simp [replaceFirstById, h, ih]
  obtain ⟨j, fs⟩ := e
  cases j with
  | none => exact ⟨fun _ => rfl, fun i h => by simp at h⟩
  | some n =>
    refine ⟨fun h => by simp at h, fun i h => ?_⟩
    simp only [Option.some.injEq] at h
    subst h
    exact ⟨rfl, hmap (some n) fs c.docs⟩

/-- Witness for C8: replace at a concrete store, in both the not-yet-saved
and the identified case. -/
theorem replace_spec_witness :
    Document.replace ⟨[⟨some 1, []⟩], 2⟩ ⟨none, [("x", BValue.int 5)]⟩
      = (⟨[⟨some 1, []⟩], 2⟩, Except.error DocError.documentWasNotSaved) ∧
    Document.replace ⟨[⟨some 1, []⟩], 2⟩ ⟨some 1, [("x", BValue.int 5)]⟩
      = (⟨[⟨some 1, [("x", BValue.int 5)]⟩], 2⟩,
          Except.ok ⟨some 1, [("x", BValue.int 5)]⟩) := by
  constructor
  · exact (replace_spec ⟨[⟨some 1, []⟩], 2⟩ ⟨none, [("x", BValue.int 5)]⟩).1 rfl
  · have h := ((replace_spec ⟨[⟨some 1, []⟩], 2⟩ ⟨some 1, [("x", BValue.int 5)]⟩).2
      1 rfl).1
    rw [h]
    rfl

/-- Claim C1: replace_many raises ReplaceError and leaves the store
completely unchanged whenever the count of stored records whose identity
is among the supplied documents' identities differs from the number of
supplied documents; when the counts match it deletes the matched records
and appends the supplied documents keeping their identities. -/
theorem replace_many_spec (c : Collection) (ds : List Entity) :
    (countIdIn c (ds.map Entity.id) ≠ ds.length →
      Document.replace_many c ds
        = (c, Except.error (DocError.replaceError
            "Some of the documents are not exist in the collection"))) ∧
    (countIdIn c (ds.map Entity.id) = ds.length →
      Document.replace_many c ds
        = (⟨(c.docs.filter fun d => ! idIn d (ds.map Entity.id))
              ++ ds.map (fun e => ⟨e.id, e.fields⟩), c.nextId⟩,
            Except.ok ())) := by
  constructor
  · intro h
    simp [Document.replace_many, h]
  · intro h
    simp [Document.replace_many, h, Document.insert_many, deleteIdIn]

/-- Witness for C1: replace_many at concrete stores, in both the
missing-identity case (store unchanged) and the matching case. -/
theorem replace_many_spec_witness :
    Document.replace_many ⟨[], 0⟩ [⟨some 1, []⟩]
      = (⟨[], 0⟩, Except.error (DocError.replaceError
          "Some of the documents are not exist in the collection")) ∧
    Document.replace_many ⟨[⟨some 1, []⟩], 2⟩ [⟨some 1, [("a", BValue.int 7)]⟩]
      = (⟨[⟨some 1, [("a", BValue.int 7)]⟩], 2⟩, Except.ok ()) := by
  constructor
  · exact (replace_many_spec ⟨[], 0⟩ [⟨some 1, []⟩]).1 (by simp [countIdIn, idIn])
  · have h := (replace_many_spec ⟨[⟨some 1, []⟩], 2⟩
      [⟨some 1, [("a", BValue.int 7)]⟩]).2 (by simp [countIdIn, idIn])
    rw [h]
    rfl

/-- Claim C3: the rendered aggregation pipeline is the $match stage from
the accumulated filter (omitted exactly when the filter is empty),
followed by the caller-supplied stages in their original order, followed
by the $project stage from the projection schema's field set (omitted
when no projection model is set); Document.aggregate seeds an empty
filter, so its pipeline carries no $match stage. -/
theorem aggregation_pipeline_spec (q : AggregationQuery) (p : List BDoc)
    (pm : Option (List String)) :
    (q.find_query = [] →
      q.get_aggregation_pipeline
        = q.aggregation_pipeline
          ++ (match q.projection_model with
              | some fps => [[("$project", BValue.doc (get_projection fps))]]
              | none => [])) ∧
    (q.find_query ≠ [] →
      q.get_aggregation_pipeline
        = [[("$match", BValue.doc q.find_query)]]
          ++ q.aggregation_pipeline
          ++ (match q.projection_model with
              | some fps => [[("$project", BValue.doc (get_projection fps))]]
              | none => [])) ∧
    (Document.aggregate p pm).get_aggregation_pipeline
      = p ++ (match pm with
              | some fps => [[("$project", BValue.doc (get_projection fps))]]
              | none => []) := by
  refine ⟨?_, ?_, ?_⟩
  · intro hq
    simp [AggregationQuery.get_aggregation_pipeline, hq]
  · intro hq
    cases hfq : q.find_query with
    | nil => exact absurd hfq hq
    | cons a t => simp [AggregationQuery.get_aggregation_pipeline, hfq]
  · simp [Document.aggregate, AggregationQuery.get_aggregation_pipeline]

/-- Witness for C3: the rendered pipeline at concrete queries — with a
non-empty filter and a projection model, with an empty filter, and via
Document.aggregate. -/
theorem aggregation_pipeline_spec_witness :
    (AggregationQuery.mk [[("$count", BValue.str "n")]]
        [("x", BValue.int 1)] (some ["a"])).get_aggregation_pipeline
      = [[("$match", BValue.doc [("x", BValue.int 1)])],
          [("$count", BValue.str "n")],
          [("$project", BValue.doc [("a", BValue.int 1)])]] ∧
    (Document.aggregate [[("$count", BValue.str "n")]] none).get_aggregation_pipeline
      = [[("$count", BValue.str "n")]] := by
  constructor
  · have h := (aggregation_pipeline_spec
      (AggregationQuery.mk [[("$count", BValue.str "n")]]
        [("x", BValue.int 1)] (some ["a"])) [] none).2.1 (by simp)
    rw [h]
    rfl
  · exact (aggregation_pipeline_spec
      (AggregationQuery.mk [] [] none) [[("$count", BValue.str "n")]] none).2.2

end Beanie

namespace Beanie

/-- Folding the inspection step accumulates one error entry per failing
record in stream order, and the status leaves OK exactly when every
record validates. -/
theorem inspect_foldl (v : BDoc → Option String) (l : List StoredDoc)
    (acc : InspectionResult) :
    (l.foldl (inspectStep v) acc).errors
        = acc.errors
          ++ (l.filterMap fun d =>
                (v d.toMapping).map fun msg => InspectionError.mk d.id msg) ∧
    (l.foldl (inspectStep v) acc).status
        = if l.all fun d => (v d.toMapping).isNone then acc.status
          else InspectionStatus.fail := by
  induction l generalizing acc with
  | nil => simp
  | cons d t ih =>
    cases hv : v d.toMapping with
    | none =>
      have h := ih acc
      constructor
      · simpa [inspectStep, hv] using h.1
      · simpa [inspectStep, hv] using h.2
    | some msg =>
      have h := ih ⟨InspectionStatus.fail, acc.errors ++ [⟨d.id, msg⟩]⟩
      constructor
      · simpa [inspectStep, hv] using h.1
      · have h2 := h.2
        simp only [ite_self] at h2
        simpa [inspectStep, hv] using h2

/-- Claim C4: inspect_collection reads the store without mutating it and
does not halt on the first failure: its error list carries exactly one
(record identity, message) entry per failing record in stream order, and
its status is OK exactly when every stored record validates (so with any
failing record it is FAIL). -/
theorem inspect_collection_spec (v : BDoc → Option String) (c : Collection) :
    (Document.inspect_collection v c).1 = c ∧
    (Document.inspect_collection v c).2.errors
        = (c.docs.filterMap fun d =>
            (v d.toMapping).map fun msg => InspectionError.mk d.id msg) ∧
    ((Document.inspect_collection v c).2.status = InspectionStatus.ok
        ↔ ∀ d ∈ c.docs, v d.toMapping = none) := by
  have h := inspect_foldl v c.docs ⟨InspectionStatus.ok, []⟩
  refine ⟨rfl, by simpa [Document.inspect_collection] using h.1, ?_⟩
  have h2 : (Document.inspect_collection v c).2.status
      = if c.docs.all fun d => (v d.toMapping).isNone then InspectionStatus.ok
        else InspectionStatus.fail := h.2
  rw [h2]
  by_cases hall : c.docs.all fun d => (v d.toMapping).isNone
  · simp only [hall, if_true, true_iff]
    intro d hd
    have := List.all_eq_true.1 hall d hd
    exact Option.isNone_iff_eq_none.1 this
  · simp only [hall, if_false]
    constructor
    · intro hco
      exact absurd hco (by simp)
    · intro hv
      exact absurd (List.all_eq_true.2 fun d hd => by simp [hv d hd]) hall

/-- Boolean equality of stored `_id` values coincides with equality of the
underlying identities. -/
theorem idValue_beq (a b : Option Nat) :
    BValue.beq (idValue a) (idValue b) = decide (a = b) := by
  cases a with
  | none => cases b <;> simp [idValue, BValue.beq]
  | some m =>
    cases b with
    | none => simp [idValue, BValue.beq]
    | some n =>
      by_cases h : m = n
      · subst h; simp [idValue, BValue.beq]
      · simp [idValue, BValue.beq, h]

/-- Matching the single-pair filter on `_id` selects exactly the records
with that identity. -/
theorem matches_id_filter (d : StoredDoc) (i : Option Nat) :
    matchesFilter d [("_id", idValue i)] = decide (d.id = i) := by
  simp [matchesFilter, matchesPair, StoredDoc.toMapping, List.lookup, idValue_beq]

/-- Searching with the `_id` filter is searching by identity. -/
theorem find_id_filter (l : List StoredDoc) (i : Option Nat) :
    (l.find? fun d => matchesFilter d [("_id", idValue i)])
      = l.find? fun d => decide (d.id = i) := by
  induction l with
  | nil => rfl
  | cons d t ih => simp [List.find?_cons, matches_id_filter, ih]

/-- When some stored record carries the identity, get returns a mapped
entity carrying that identity. -/
theorem get_found (c : Collection) (i : Option Nat) (s : Option Nat)
    (h : ∃ d ∈ c.docs, d.id = i) :
    ∃ e2, Document.get c i s = some e2 ∧ e2.id = i := by
  obtain ⟨d, hd, hid⟩ := h
  have hsome : (c.docs.find? fun d => decide (d.id = i)).isSome :=
    List.find?_isSome.2 ⟨d, hd, by simp [hid]⟩
  obtain ⟨d0, hd0⟩ := Option.isSome_iff_exists.1 hsome
  have hid0 : d0.id = i := by
    have := List.find?_some hd0
    simpa using this
  refine ⟨d0.toEntity, ?_, hid0⟩
  simp only [Document.get, Document.find_one, findOneExec, find_id_filter, hd0]
  rfl

/-- When no stored record carries the identity, get returns None. -/
theorem get_absent (c : Collection) (i : Option Nat) (s : Option Nat)
    (h : ∀ d ∈ c.docs, d.id ≠ i) :
    Document.get c i s = none := by
  have : (c.docs.find? fun d => decide (d.id = i)) = none :=
    List.find?_eq_none.2 fun d hd => by simp [h d hd]
  simp only [Document.get, Document.find_one, findOneExec, find_id_filter, this]
  rfl

/-- Claim C7: Document.get(id) delegates to Document.find_one on the
filter binding `_id` to that identity with the same session, and both
return the mapped entity exactly when a record with that identity is
stored, None otherwise. -/
theorem get_spec (c : Collection) (i : Option Nat) (s : Option Nat) :
    Document.get c i s = Document.find_one c [("_id", idValue i)] s ∧
    ((∃ d ∈ c.docs, d.id = i) →
      ∃ e2, Document.get c i s = some e2
        ∧ Document.find_one c [("_id", idValue i)] s = some e2 ∧ e2.id = i) ∧
    ((∀ d ∈ c.docs, d.id ≠ i) →
      Document.get c i s = none
        ∧ Document.find_one c [("_id", idValue i)] s = none) := by
  refine ⟨rfl, ?_, ?_⟩
  · intro h
    obtain ⟨e2, hg, hid⟩ := get_found c i s h
    exact ⟨e2, hg, hg, hid⟩
  · intro h
    exact ⟨get_absent c i s h, get_absent c i s h⟩

/-- Witness for C7: get at a concrete store, in both the present and the
absent case. -/
theorem get_spec_witness :
    (∃ e2, Document.get ⟨[⟨some 4, [("x", BValue.int 9)]⟩], 5⟩ (some 4) none = some e2
        ∧ e2.id = some 4) ∧
    Document.get ⟨[⟨some 4, [("x", BValue.int 9)]⟩], 5⟩ (some 3) none = none := by
  constructor
  · obtain ⟨e2, hg, _, hid⟩ :=
      (get_spec ⟨[⟨some 4, [("x", BValue.int 9)]⟩], 5⟩ (some 4) none).2.1
        ⟨⟨some 4, [("x", BValue.int 9)]⟩, by simp, rfl⟩
    exact ⟨e2, hg, hid⟩
  · exact ((get_spec ⟨[⟨some 4, [("x", BValue.int 9)]⟩], 5⟩ (some 3) none).2.2
      (by intro d hd; simp at hd; simp [hd])).1

/-- The store-side partial update keyed by an identity never changes the
sequence of stored identities. -/
theorem updateFirst_map_id (m : BDoc → BDoc) (i : Option Nat) (l : List StoredDoc) :
    (updateFirstById m i l).map StoredDoc.id = l.map StoredDoc.id := by
  induction l with
  | nil => rfl
  | cons d t ih =>
    by_cases h : d.id = i
    · simp [updateFirstById, h]
    · simp [updateFirstById, h, ih]

/-- Claim C5: after Document.update the local entity is resynced from the
store: the method returns an in-memory entity that carries the original
identity and equals the stored record, so re-reading via get yields
exactly the in-memory state. -/
theorem update_resync (m : BDoc → BDoc) (c : Collection) (e : Entity)
    (h : ∃ d ∈ c.docs, d.id = e.id) :
    ∃ e2, (Document.update m c e).2 = some e2 ∧ e2.id = e.id ∧
      Document.get (Document.update m c e).1 e2.id none = some e2 := by
  obtain ⟨d, hd, hid⟩ := h
  have hmem : e.id ∈ ((updateOneById m c e.id).docs.map StoredDoc.id) := by
    show e.id ∈ (updateFirstById m e.id c.docs).map StoredDoc.id
    rw [updateFirst_map_id]
    exact List.mem_map.2 ⟨d, hd, hid⟩
  obtain ⟨d2, hd2, hid2⟩ := List.mem_map.1 hmem
  obtain ⟨e2, hg, he2⟩ :=
    get_found (updateOneById m c e.id) e.id none ⟨d2, hd2, hid2⟩
  refine ⟨e2, ?_, he2, ?_⟩
  · exact hg
  · show Document.get (updateOneById m c e.id) e2.id none = some e2
    rw [he2]
    exact hg

/-- Witness for C5: update at a concrete store and entity: the resynced
entity matches a get on the updated store. -/
theorem update_resync_witness :
    ∃ e2, (Document.update (fun _ => [("x", BValue.int 2)])
        ⟨[⟨some 1, [("x", BValue.int 1)]⟩], 2⟩ ⟨some 1, [("x", BValue.int 1)]⟩).2
      = some e2 ∧ e2.id = some 1 ∧
      Document.get (Document.update (fun _ => [("x", BValue.int 2)])
        ⟨[⟨some 1, [("x", BValue.int 1)]⟩], 2⟩ ⟨some 1, [("x", BValue.int 1)]⟩).1
        e2.id none = some e2 := by
  obtain ⟨e2, h1, h2, h3⟩ := update_resync (fun _ => [("x", BValue.int 2)])
    ⟨[⟨some 1, [("x", BValue.int 1)]⟩], 2⟩ ⟨some 1, [("x", BValue.int 1)]⟩
    ⟨⟨some 1, [("x", BValue.int 1)]⟩, by simp, rfl⟩
  exact ⟨e2, h1, h2, h3⟩

end Beanie
